import Mathlib

/-!
Shallow embedding of the smart-chat-backend core (NestJS chat gateway with a
translation pipeline and a Redis-backed room/message store), together with
theorems settling the specification claims.

Sources embedded:
- src/chat.gateway.ts: detectLanguage, isHangulJamoOnly, hangulJamoToRoman,
  translateToMultipleLanguages, ChatGateway.onRoomJoin, ChatGateway.onChatSend.
- src/redis.service.ts (RedisService): listRooms, addMessage, getMessages.

External collaborators (the `translate` npm package, JSON.parse/JSON.stringify,
the Unicode tables of the JS regex engine) are modelled as explicit parameters
or documented predicates; everything else is translated from the source.
-/

/-! ## Language detection (chat.gateway.ts) -/

/-- The `SupportedLanguage` union type of chat.gateway.ts: 'ko' | 'ja' | 'en'. -/
inductive Lang where
  | ko
  | ja
  | en
  deriving DecidableEq, Repr

/-- Codepoint test of the Hangul alternative of the detectLanguage regex:
`[ᄀ-ᇿ㄰-㆏가-힯]` (Hangul jamo, compatibility jamo,
syllables). -/
def isHangulRangeCp (c : Nat) : Bool :=
  (0x1100 ≤ c && c ≤ 0x11FF) || (0x3130 ≤ c && c ≤ 0x318F) || (0xAC00 ≤ c && c ≤ 0xD7AF)

/-- Codepoint test of the kana alternative of the detectLanguage regex:
`[぀-ゟ゠-ヿ]` (Hiragana and Katakana). -/
def isKanaRangeCp (c : Nat) : Bool :=
  (0x3040 ≤ c && c ≤ 0x309F) || (0x30A0 ≤ c && c ≤ 0x30FF)

/-- `/[ᄀ-ᇿ㄰-㆏가-힯]/.test(text)`: some character of
the text lies in a Hangul range. -/
def hasHangulCp (s : String) : Bool :=
  s.data.any (fun c => isHangulRangeCp c.toNat)

/-- `/[぀-ゟ゠-ヿ]/.test(text)`: some character of the text lies
in a kana range. -/
def hasKanaCp (s : String) : Bool :=
  s.data.any (fun c => isKanaRangeCp c.toNat)

/-- detectLanguage (chat.gateway.ts): Hangul codepoint present means 'ko', else a
Hiragana/Katakana codepoint present means 'ja', else the fallback 'en'. -/
def detectLanguage (text : String) : Lang :=
  if hasHangulCp text then .ko
  else if hasKanaCp text then .ja
  else .en

/-! ## Hangul-jamo handling (chat.gateway.ts) -/

/-- The jamo test of isHangulJamoOnly:
`(code >= 0x1100 && code <= 0x11ff) || (code >= 0x3130 && code <= 0x318f)`. -/
def isHangulJamoCp (c : Nat) : Bool :=
  (0x1100 ≤ c && c ≤ 0x11FF) || (0x3130 ≤ c && c ≤ 0x318F)

/-- The whitespace class `\s` of the JS regex engine (ECMAScript WhiteSpace plus
LineTerminator), used by `/\s/.test(ch)` in isHangulJamoOnly and by
String.prototype.trim. -/
def isJsWhitespaceCp (c : Nat) : Bool :=
  (0x9 ≤ c && c ≤ 0xD) || c == 0x20 || c == 0xA0 || c == 0x1680 ||
  (0x2000 ≤ c && c ≤ 0x200A) || c == 0x2028 || c == 0x2029 || c == 0x202F ||
  c == 0x205F || c == 0x3000 || c == 0xFEFF

/-- The letter-or-number class `\p{L}\p{N}` of the JS regex engine, restricted to
the scripts this application distinguishes (ASCII alphanumerics, Latin-1
letters, Hangul jamo and syllables, kana, CJK ideographs). The full Unicode
property table lives in the regex engine, outside this repository; within
isHangulJamoOnly this predicate is only ever consulted on characters that are
neither whitespace nor Hangul jamo. -/
def isLetterOrNumberCp (c : Nat) : Bool :=
  (0x30 ≤ c && c ≤ 0x39) || (0x41 ≤ c && c ≤ 0x5A) || (0x61 ≤ c && c ≤ 0x7A) ||
  c == 0xAA || c == 0xB5 || c == 0xBA || (0xC0 ≤ c && c ≤ 0xD6) ||
  (0xD8 ≤ c && c ≤ 0xF6) || (0xF8 ≤ c && c ≤ 0x2FF) ||
  (0x1100 ≤ c && c ≤ 0x11FF) || (0x3040 ≤ c && c ≤ 0x309F) ||
  (0x30A1 ≤ c && c ≤ 0x30FA) || (0x3131 ≤ c && c ≤ 0x318E) ||
  (0x4E00 ≤ c && c ≤ 0x9FFF) || (0xAC00 ≤ c && c ≤ 0xD7AF)

/-- The loop body of isHangulJamoOnly (chat.gateway.ts): whitespace is skipped;
a Hangul jamo marks the text as containing jamo; a non-letter/non-number
character (punctuation) is skipped; any other character makes the function
return false immediately. -/
def isHangulJamoOnlyAux : List Char → Bool → Bool
  | [], hasAnyJamo => hasAnyJamo
  | ch :: rest, hasAnyJamo =>
    if isJsWhitespaceCp ch.toNat then isHangulJamoOnlyAux rest hasAnyJamo
    else if isHangulJamoCp ch.toNat then isHangulJamoOnlyAux rest true
    else if !(isLetterOrNumberCp ch.toNat) then isHangulJamoOnlyAux rest hasAnyJamo
    else false

/-- isHangulJamoOnly (chat.gateway.ts): the text consists only of Hangul jamo,
whitespace and punctuation, and contains at least one jamo. -/
def isHangulJamoOnly (text : String) : Bool :=
  isHangulJamoOnlyAux text.data false

/-- The static jamo-to-roman lookup table of hangulJamoToRoman
(chat.gateway.ts), a JS Record: compatibility jamo and Hangul-jamo-block
initial consonants and medial vowels. -/
def hangulJamoRomanPairs : List (Char × String) :=
  [('ㄱ', "g"), ('ㄲ', "kk"), ('ㄴ', "n"), ('ㄷ', "d"), ('ㄸ', "tt"), ('ㄹ', "r"),
   ('ㅁ', "m"), ('ㅂ', "b"), ('ㅃ', "pp"), ('ㅅ', "s"), ('ㅆ', "ss"), ('ㅇ', "ng"),
   ('ㅈ', "j"), ('ㅉ', "jj"), ('ㅊ', "ch"), ('ㅋ', "k"), ('ㅌ', "t"), ('ㅍ', "p"),
   ('ㅎ', "h"),
   ('ㅏ', "a"), ('ㅐ', "ae"), ('ㅑ', "ya"), ('ㅒ', "yae"), ('ㅓ', "eo"), ('ㅔ', "e"),
   ('ㅕ', "yeo"), ('ㅖ', "ye"), ('ㅗ', "o"), ('ㅘ', "wa"), ('ㅙ', "wae"), ('ㅚ', "oe"),
   ('ㅛ', "yo"), ('ㅜ', "u"), ('ㅝ', "wo"), ('ㅞ', "we"), ('ㅟ', "wi"), ('ㅠ', "yu"),
   ('ㅡ', "eu"), ('ㅢ', "ui"), ('ㅣ', "i"),
   ('ᄀ', "g"), ('ᄁ', "kk"), ('ᄂ', "n"), ('ᄃ', "d"), ('ᄄ', "tt"), ('ᄅ', "r"),
   ('ᄆ', "m"), ('ᄇ', "b"), ('ᄈ', "pp"), ('ᄉ', "s"), ('ᄊ', "ss"), ('ᄋ', "ng"),
   ('ᄌ', "j"), ('ᄍ', "jj"), ('ᄎ', "ch"), ('ᄏ', "k"), ('ᄐ', "t"), ('ᄑ', "p"),
   ('ᄒ', "h"),
   ('ᅡ', "a"), ('ᅢ', "ae"), ('ᅣ', "ya"), ('ᅤ', "yae"), ('ᅥ', "eo"), ('ᅦ', "e"),
   ('ᅧ', "yeo"), ('ᅨ', "ye"), ('ᅩ', "o"), ('ᅪ', "wa"), ('ᅫ', "wae"), ('ᅬ', "oe"),
   ('ᅭ', "yo"), ('ᅮ', "u"), ('ᅯ', "wo"), ('ᅰ', "we"), ('ᅱ', "wi"), ('ᅲ', "yu"),
   ('ᅳ', "eu"), ('ᅴ', "ui"), ('ᅵ', "i")]

/-- `map[ch]` on the Record above: some romanization, or none for an unmapped
character. -/
def hangulJamoRomanMap (c : Char) : Option String :=
  hangulJamoRomanPairs.lookup c

/-- hangulJamoToRoman (chat.gateway.ts): `out += map[ch] ?? ch` over the
characters of the text. -/
def hangulJamoToRoman (text : String) : String :=
  text.data.foldl (fun out ch => out ++ ((hangulJamoRomanMap ch).getD (String.singleton ch))) ""

/-! ## Translation pipeline (chat.gateway.ts translateToMultipleLanguages) -/

/-- The translations object built by translateToMultipleLanguages: a partial
record from SupportedLanguage to string, starting as the empty object. A slot
holds none while unassigned. -/
structure Translations where
  ko : Option String
  ja : Option String
  en : Option String
  deriving DecidableEq, Repr

/-- The empty object `{}` the pipeline starts from. -/
def Translations.empty : Translations := ⟨none, none, none⟩

/-- `translations[lang] = v`. -/
def Translations.set (t : Translations) (l : Lang) (v : String) : Translations :=
  match l with
  | .ko => ⟨some v, t.ja, t.en⟩
  | .ja => ⟨t.ko, some v, t.en⟩
  | .en => ⟨t.ko, t.ja, some v⟩

/-- Reading `translations[lang]`; none when the slot was never assigned. -/
def Translations.get (t : Translations) (l : Lang) : Option String :=
  match l with
  | .ko => t.ko
  | .ja => t.ja
  | .en => t.en

/-- Model of the external `translate` package (Translator Interface): given the
request text and the source and target languages, it resolves with a string
(already coerced, matching `typeof translated === 'string' ? translated :
String(translated)`) or rejects, modelled as none. -/
def Translator : Type := String → Lang → Lang → Option String

/-- One invocation of the external translator, recorded for the
no-call-is-made claims: the request text and the from/to languages. -/
structure TransCall where
  text : String
  src : Lang
  tgt : Lang
  deriving DecidableEq, Repr

/-- `const targetLanguages: SupportedLanguage[] = ['ko', 'ja', 'en']`. -/
def targetLanguages : List Lang := [.ko, .ja, .en]

/-- The `textForTranslation` value of translateToMultipleLanguages: when the
detected source is 'ko', jamo characters are transliterated before the text is
sent to the backend; otherwise the text is sent as is. -/
def textForTranslationOf (text : String) : String :=
  if detectLanguage text = .ko then hangulJamoToRoman text else text

/-- The body of the per-target loop of translateToMultipleLanguages. In the
jamo-only case the transliteration is stored and no call is made; otherwise the
translator is called (the call is recorded) and on failure the original text is
stored as fallback. -/
def translateStep (tr : Translator) (fromL : Lang) (isJamoOnly : Bool)
    (jamoRoman textForTranslation text : String)
    (acc : Translations × List TransCall) (lang : Lang) : Translations × List TransCall :=
  if lang = fromL then acc
  else if isJamoOnly then (acc.1.set lang jamoRoman, acc.2)
  else
    match tr textForTranslation fromL lang with
    | some s => (acc.1.set lang s, acc.2 ++ [⟨textForTranslation, fromL, lang⟩])
    | none => (acc.1.set lang text, acc.2 ++ [⟨textForTranslation, fromL, lang⟩])

/-- translateToMultipleLanguages (chat.gateway.ts): detect the source language,
keep the original verbatim in the source slot, then fill every other slot by
transliteration (jamo-only case) or by calling the translator with
per-target fallback to the original on failure. The second component records
the translator invocations made. -/
def translateToMultipleLanguages (tr : Translator) (text : String) :
    Translations × List TransCall :=
  let fromL := detectLanguage text
  let isJamoOnly := decide (fromL = .ko) && isHangulJamoOnly text
  let jamoRoman := if isJamoOnly then hangulJamoToRoman text else ""
  targetLanguages.foldl
    (translateStep tr fromL isJamoOnly jamoRoman (textForTranslationOf text) text)
    (Translations.empty.set fromL text, [])

/-! ## Redis store (redis.service.ts RedisService) -/

/-- The default chat-history capacity: `Number(process.env.CHAT_HISTORY_LIMIT) || 200`
with the variable unset. -/
def chatHistoryLimit : Nat := 200

/-- RedisService.addMessage: LPUSH the serialized message onto the room's list
(newest first), then `LTRIM key 0 (Math.max(0, limit - 1))`, keeping only list
indices 0 .. limit-1. `limit` stands for `Number(CHAT_HISTORY_LIMIT) || 200`
and the list is the room's history of raw JSON strings. -/
def addMessage (limit : Nat) (hist : List String) (raw : String) : List String :=
  (raw :: hist).take (Nat.max 0 (limit - 1) + 1)

/-- RedisService.getMessages: `LRANGE key 0 (Math.max(0, limit - 1))` reads the
`limit` newest entries (newest first), each is JSON.parsed with parse failures
skipped, and the result is reversed to oldest-first order. JSON.parse is the
external parameter `parse`. -/
def getMessages {α : Type} (parse : String → Option α) (hist : List String)
    (limit : Nat) : List α :=
  ((hist.take (Nat.max 0 (limit - 1) + 1)).filterMap parse).reverse

/-- The ChatRoom record of redis.service.ts. -/
structure ChatRoom where
  id : String
  name : String
  createdAt : Nat
  createdByUserId : String
  createdByNickname : String
  deriving DecidableEq, Repr

/-- The sort comparator of listRooms, `(a, b) => a.createdAt - b.createdAt`,
as the Boolean order it induces. -/
def roomLe (a b : ChatRoom) : Bool := a.createdAt ≤ b.createdAt

/-- The persisted Redis state consumed by the store: the chat:rooms id set
(sMembers enumeration order), the per-room metadata strings (GET), and the
per-room message lists (newest first). -/
structure RedisState where
  roomIds : List String
  roomMeta : List (String × String)
  histories : List (String × List String)
  deriving DecidableEq, Repr

/-- The room records listRooms manages to decode: for each id of the index set,
GET its metadata; `if (!raw) continue` skips both an absent record and the JS
falsy empty string; JSON.parse failures (parameter `parseRoom`) are skipped. -/
def decodableRooms (parseRoom : String → Option ChatRoom) (st : RedisState) :
    List ChatRoom :=
  st.roomIds.filterMap (fun id =>
    match st.roomMeta.lookup id with
    | none => none
    | some raw => if raw = "" then none else parseRoom raw)

/-- RedisService.listRooms: decode the per-room records (skipping missing and
corrupt ones) and sort ascending by createdAt. Array.prototype.sort is a stable
comparison sort, modelled by the stable mergeSort. -/
def listRooms (parseRoom : String → Option ChatRoom) (st : RedisState) :
    List ChatRoom :=
  (decodableRooms parseRoom st).mergeSort roomLe

/-! ## Gateway sessions and handlers (chat.gateway.ts ChatGateway) -/

/-- The `from` field of a stored chat message: userId and nickname snapshot. -/
structure Sender where
  userId : String
  nickname : String
  deriving DecidableEq, Repr

/-- The ChatMessage record of redis.service.ts; `from_` and `at_` embed the JS
fields `from` and `at` (reserved words in Lean). -/
structure ChatMessage where
  roomId : String
  from_ : Sender
  at_ : Nat
  translations : Translations
  deriving DecidableEq, Repr

/-- One entry of the gateway's sessions map: socket.id to
`{ userId, nickname, roomId }`. -/
structure Session where
  userId : String
  nickname : String
  roomId : Option String
  deriving DecidableEq, Repr

/-- Outbound events the embedded handlers produce: a `chat:message` multicast to
a room and a `room:join:result` unicast to the caller. -/
inductive Emit where
  | chatMessage (roomId : String) (msg : ChatMessage)
  | joinResult (clientId : String) (room : Option ChatRoom) (roomId : String)
      (messages : List ChatMessage)
  deriving DecidableEq, Repr

/-- The gateway state the handlers read and write: the sessions map, the
socket.io adapter's per-client room membership (client.join / client.leave),
and the Redis state. -/
structure GatewayState where
  sessions : List (String × Session)
  socketRooms : List (String × List String)
  redis : RedisState
  deriving DecidableEq, Repr

/-- Map-style update of an association list (JS Map.set / Redis SET): replaces
the binding of the key or appends a fresh one. -/
def setAssoc {α : Type} (l : List (String × α)) (k : String) (v : α) :
    List (String × α) :=
  match l with
  | [] => [(k, v)]
  | (k', v') :: rest => if k' = k then (k, v) :: rest else (k', v') :: setAssoc rest k v

/-- The rooms a client is currently joined to at the transport layer. -/
def getRooms (l : List (String × List String)) (c : String) : List String :=
  (l.lookup c).getD []

/-- socket.io `client.join(room)`: adds the room to the client's membership set
(idempotent). -/
def socketJoin (l : List (String × List String)) (c room : String) :
    List (String × List String) :=
  let cur := (l.lookup c).getD []
  setAssoc l c (if room ∈ cur then cur else cur ++ [room])

/-- socket.io `client.leave(room)`: removes the room from the client's
membership set. -/
def socketLeave (l : List (String × List String)) (c room : String) :
    List (String × List String) :=
  let cur := (l.lookup c).getD []
  setAssoc l c (cur.filter (fun r => r != room))

/-- An incoming JS payload field: either a string or a value of another type
(undefined, number, object, ...). -/
inductive JsVal where
  | str (s : String)
  | notStr
  deriving DecidableEq, Repr

/-- String.prototype.trim: strips JS whitespace from both ends. -/
def jsTrim (s : String) : String :=
  String.mk (((s.data.dropWhile (fun c => isJsWhitespaceCp c.toNat)).reverse.dropWhile
    (fun c => isJsWhitespaceCp c.toNat)).reverse)

/-- The payload guard `typeof v === 'string' ? v.trim() : ''` used by
onRoomJoin (for roomId) and onChatSend (for text). -/
def strOrEmpty (v : JsVal) : String :=
  match v with
  | .str s => jsTrim s
  | .notStr => ""

/-- ChatGateway.onRoomJoin (chat.gateway.ts): require a session and a non-empty
trimmed roomId; leave the previously joined room when it differs; join the new
room at the transport layer and record it in the session; reply with the room
metadata (absent if unknown) and the room's message history. JSON parsing is
the external parameters parseRoom / parseMsg. -/
def onRoomJoin (parseRoom : String → Option ChatRoom)
    (parseMsg : String → Option ChatMessage) (st : GatewayState)
    (clientId : String) (body : JsVal) : GatewayState × List Emit :=
  match st.sessions.lookup clientId with
  | none => (st, [])
  | some session =>
    let roomId := strOrEmpty body
    if roomId = "" then (st, [])
    else
      let rooms1 :=
        match session.roomId with
        | some old =>
          if old ≠ roomId then socketLeave st.socketRooms clientId old else st.socketRooms
        | none => st.socketRooms
      let rooms2 := socketJoin rooms1 clientId roomId
      let sessions2 := setAssoc st.sessions clientId ⟨session.userId, session.nickname, some roomId⟩
      let roomList := listRooms parseRoom st.redis
      let room := roomList.find? (fun r => r.id == roomId)
      let msgs := getMessages parseMsg ((st.redis.histories.lookup roomId).getD []) 50
      (⟨sessions2, rooms2, st.redis⟩, [.joinResult clientId room roomId msgs])

/-- ChatGateway.onChatSend (chat.gateway.ts): require a non-empty trimmed string
text, then a session currently holding a room; otherwise return silently. On
success, run the translation pipeline, build the message with the sender
snapshot and timestamp `now`, append its serialization (external parameter
`encode`, standing for JSON.stringify) to the room's bounded history, and
multicast it to the room. -/
def onChatSend (tr : Translator) (encode : ChatMessage → String)
    (histLimit now : Nat) (st : GatewayState) (clientId : String) (body : JsVal) :
    GatewayState × List Emit :=
  let text := strOrEmpty body
  if text = "" then (st, [])
  else
    match st.sessions.lookup clientId with
    | none => (st, [])
    | some session =>
      match session.roomId with
      | none => (st, [])
      | some roomId =>
        let translations := (translateToMultipleLanguages tr text).1
        let message : ChatMessage := ⟨roomId, ⟨session.userId, session.nickname⟩, now, translations⟩
        let hist := (st.redis.histories.lookup roomId).getD []
        let hist2 := addMessage histLimit hist (encode message)
        let redis2 : RedisState :=
          ⟨st.redis.roomIds, st.redis.roomMeta, setAssoc st.redis.histories roomId hist2⟩
        (⟨st.sessions, st.socketRooms, redis2⟩, [.chatMessage roomId message])

/-- The room a client's session currently records, when the client has a
session. -/
def sessionRoomOf (st : GatewayState) (c : String) : Option String :=
  (st.sessions.lookup c).bind (fun s => s.roomId)

/-- The membership invariant of the gateway: every client's transport-layer
room membership is exactly the (at most one) room its session records; clients
without a session are in no room. It holds for fresh connections (roomId null,
no membership) and, as proved below, is preserved by onRoomJoin. In particular
every client is a member of at most one room. -/
def SocketRoomsInv (st : GatewayState) : Prop :=
  ∀ c : String, getRooms st.socketRooms c = (sessionRoomOf st c).toList

/-! ## Helper lemmas: the translations record -/

theorem get_set_same (t : Translations) (l : Lang) (v : String) :
    (t.set l v).get l = some v := by cases l <;> rfl

theorem get_set_ne (t : Translations) (l l' : Lang) (v : String)
    (h : l' ≠ l) : (t.set l v).get l' = t.get l' := by
  cases l <;> cases l' <;> first | rfl | exact absurd rfl h

/-! ## Helper lemmas: the per-target translation fold -/

theorem step_get_from (tr : Translator) (fromL : Lang) (jo : Bool) (jr tft text : String)
    (acc : Translations × List TransCall) (lang : Lang)
    (h : acc.1.get fromL = some text) :
    (translateStep tr fromL jo jr tft text acc lang).1.get fromL = some text := by
  unfold translateStep
  split_ifs with h1 h2
  · exact h
  · rw [get_set_ne _ _ _ _ (fun he => h1 he.symm)]; exact h
  · split <;> (rw [get_set_ne _ _ _ _ (fun he => h1 he.symm)]; exact h)

theorem foldl_get_from (tr : Translator) (fromL : Lang) (jo : Bool) (jr tft text : String) :
    ∀ (langs : List Lang) (acc : Translations × List TransCall),
      acc.1.get fromL = some text →
      ((langs.foldl (translateStep tr fromL jo jr tft text) acc).1.get fromL = some text)
  | [], _, h => h
  | lang :: rest, acc, h =>
    foldl_get_from tr fromL jo jr tft text rest _
      (step_get_from tr fromL jo jr tft text acc lang h)

theorem step_get_mono (tr : Translator) (fromL : Lang) (jo : Bool) (jr tft text : String)
    (acc : Translations × List TransCall) (lang l : Lang)
    (h : acc.1.get l ≠ none) :
    (translateStep tr fromL jo jr tft text acc lang).1.get l ≠ none := by
  unfold translateStep
  split_ifs with h1 h2
  · exact h
  · by_cases hl : l = lang
    · subst hl; rw [get_set_same]; exact Option.some_ne_none _
    · rw [get_set_ne _ _ _ _ hl]; exact h
  · split <;>
      (by_cases hl : l = lang
       · subst hl; rw [get_set_same]; exact Option.some_ne_none _
       · rw [get_set_ne _ _ _ _ hl]; exact h)

theorem foldl_get_mono (tr : Translator) (fromL : Lang) (jo : Bool) (jr tft text : String) :
    ∀ (langs : List Lang) (acc : Translations × List TransCall) (l : Lang),
      acc.1.get l ≠ none →
      ((langs.foldl (translateStep tr fromL jo jr tft text) acc).1.get l ≠ none)
  | [], _, _, h => h
  | lang :: rest, acc, l, h =>
    foldl_get_mono tr fromL jo jr tft text rest _ l
      (step_get_mono tr fromL jo jr tft text acc lang l h)

theorem step_get_self (tr : Translator) (fromL : Lang) (jo : Bool) (jr tft text : String)
    (acc : Translations × List TransCall) (lang : Lang) (h : lang ≠ fromL) :
    (translateStep tr fromL jo jr tft text acc lang).1.get lang ≠ none := by
  unfold translateStep
  split_ifs with h1 h2
  · exact absurd h1 h
  · rw [get_set_same]; exact Option.some_ne_none _
  · split <;> (rw [get_set_same]; exact Option.some_ne_none _)

theorem foldl_get_filled (tr : Translator) (fromL : Lang) (jo : Bool) (jr tft text : String) :
    ∀ (langs : List Lang) (acc : Translations × List TransCall) (l : Lang),
      l ∈ langs → l ≠ fromL →
      ((langs.foldl (translateStep tr fromL jo jr tft text) acc).1.get l ≠ none)
  | lang :: rest, acc, l, hmem, hne => by
    rcases List.mem_cons.mp hmem with he | hr
    · subst he
      exact foldl_get_mono tr fromL jo jr tft text rest _ l
        (step_get_self tr fromL jo jr tft text acc l hne)
    · exact foldl_get_filled tr fromL jo jr tft text rest _ l hr hne

theorem step_calls_tgt (tr : Translator) (fromL : Lang) (jo : Bool) (jr tft text : String)
    (acc : Translations × List TransCall) (lang : Lang)
    (h : ∀ c ∈ acc.2, c.tgt ≠ fromL) :
    ∀ c ∈ (translateStep tr fromL jo jr tft text acc lang).2, c.tgt ≠ fromL := by
  unfold translateStep
  split_ifs with h1 h2
  · exact h
  · exact h
  · split <;>
      (intro c hc
       rcases List.mem_append.mp hc with hc1 | hc2
       · exact h c hc1
       · rcases List.mem_singleton.mp hc2 with rfl
         exact h1)

theorem foldl_calls_tgt (tr : Translator) (fromL : Lang) (jo : Bool) (jr tft text : String) :
    ∀ (langs : List Lang) (acc : Translations × List TransCall),
      (∀ c ∈ acc.2, c.tgt ≠ fromL) →
      ∀ c ∈ (langs.foldl (translateStep tr fromL jo jr tft text) acc).2, c.tgt ≠ fromL
  | [], _, h => h
  | lang :: rest, acc, h =>
    foldl_calls_tgt tr fromL jo jr tft text rest _
      (step_calls_tgt tr fromL jo jr tft text acc lang h)

theorem step_get_other (tr : Translator) (fromL : Lang) (jo : Bool) (jr tft text : String)
    (acc : Translations × List TransCall) (lang l : Lang) (h : l ≠ lang) :
    (translateStep tr fromL jo jr tft text acc lang).1.get l = acc.1.get l := by
  unfold translateStep
  split_ifs with h1 h2
  · rfl
  · rw [get_set_ne _ _ _ _ h]
  · split <;> rw [get_set_ne _ _ _ _ h]

theorem foldl_get_notin (tr : Translator) (fromL : Lang) (jo : Bool) (jr tft text : String) :
    ∀ (langs : List Lang) (acc : Translations × List TransCall) (l : Lang),
      l ∉ langs →
      ((langs.foldl (translateStep tr fromL jo jr tft text) acc).1.get l = acc.1.get l)
  | [], _, _, _ => rfl
  | lang :: rest, acc, l, hmem => by
    rw [List.foldl_cons,
      foldl_get_notin tr fromL jo jr tft text rest _ l (fun hr => hmem (List.mem_cons_of_mem _ hr)),
      step_get_other tr fromL jo jr tft text acc lang l (fun he => hmem (he ▸ List.mem_cons_self _ _))]

theorem step_get_value (tr : Translator) (fromL : Lang) (jr tft text : String)
    (acc : Translations × List TransCall) (lang : Lang) (h : lang ≠ fromL) :
    (translateStep tr fromL false jr tft text acc lang).1.get lang =
      some (match tr tft fromL lang with | some s => s | none => text) := by
  unfold translateStep
  rw [if_neg h, if_neg Bool.false_ne_true]
  split <;> rw [get_set_same]

theorem step_get_value_jamo (tr : Translator) (fromL : Lang) (jr tft text : String)
    (acc : Translations × List TransCall) (lang : Lang) (h : lang ≠ fromL) :
    (translateStep tr fromL true jr tft text acc lang).1.get lang = some jr := by
  unfold translateStep
  rw [if_neg h, if_pos rfl, get_set_same]

theorem foldl_get_value (tr : Translator) (fromL : Lang) (jr tft text : String) :
    ∀ (langs : List Lang) (acc : Translations × List TransCall) (l : Lang),
      langs.Nodup → l ∈ langs → l ≠ fromL →
      ((langs.foldl (translateStep tr fromL false jr tft text) acc).1.get l =
        some (match tr tft fromL l with | some s => s | none => text))
  | lang :: rest, acc, l, hnd, hmem, hne => by
    rcases List.mem_cons.mp hmem with he | hr
    · subst he
      rw [List.foldl_cons,
        foldl_get_notin tr fromL false jr tft text rest _ l (List.nodup_cons.mp hnd).1,
        step_get_value tr fromL jr tft text acc l hne]
    · rw [List.foldl_cons]
      exact foldl_get_value tr fromL jr tft text rest _ l (List.nodup_cons.mp hnd).2 hr hne

theorem foldl_get_value_jamo (tr : Translator) (fromL : Lang) (jr tft text : String) :
    ∀ (langs : List Lang) (acc : Translations × List TransCall) (l : Lang),
      langs.Nodup → l ∈ langs → l ≠ fromL →
      ((langs.foldl (translateStep tr fromL true jr tft text) acc).1.get l = some jr)
  | lang :: rest, acc, l, hnd, hmem, hne => by
    rcases List.mem_cons.mp hmem with he | hr
    · subst he
      rw [List.foldl_cons,
        foldl_get_notin tr fromL true jr tft text rest _ l (List.nodup_cons.mp hnd).1,
        step_get_value_jamo tr fromL jr tft text acc l hne]
    · rw [List.foldl_cons]
      exact foldl_get_value_jamo tr fromL jr tft text rest _ l (List.nodup_cons.mp hnd).2 hr hne

theorem foldl_calls_jamo (tr : Translator) (fromL : Lang) (jr tft text : String) :
    ∀ (langs : List Lang) (acc : Translations × List TransCall),
      ((langs.foldl (translateStep tr fromL true jr tft text) acc).2 = acc.2)
  | [], _ => rfl
  | lang :: rest, acc => by
    rw [List.foldl_cons, foldl_calls_jamo tr fromL jr tft text rest]
    unfold translateStep
    by_cases hl : lang = fromL
    · rw [if_pos hl]
    · rw [if_neg hl, if_pos rfl]

/-! ## Helper lemmas: characterization of the pipeline -/

theorem translate_source_verbatim (tr : Translator) (text : String) :
    (translateToMultipleLanguages tr text).1.get (detectLanguage text) = some text := by
  unfold translateToMultipleLanguages
  exact foldl_get_from _ _ _ _ _ _ _ _ (get_set_same _ _ _)

theorem mem_targetLanguages (l : Lang) : l ∈ targetLanguages := by
  cases l <;> simp [targetLanguages]

theorem nodup_targetLanguages : targetLanguages.Nodup := by decide

theorem jamo_cond_false (text : String)
    (hnj : ¬ (detectLanguage text = .ko ∧ isHangulJamoOnly text = true)) :
    (decide (detectLanguage text = .ko) && isHangulJamoOnly text) = false := by
  by_cases hk : detectLanguage text = .ko
  · have hjf : isHangulJamoOnly text = false := by
      cases hj : isHangulJamoOnly text
      · rfl
      · exact absurd ⟨hk, hj⟩ hnj
    simp [hjf]
  · simp [hk]

theorem translate_get_target (tr : Translator) (text : String) (l : Lang)
    (hl : l ≠ detectLanguage text)
    (hnj : ¬ (detectLanguage text = .ko ∧ isHangulJamoOnly text = true)) :
    (translateToMultipleLanguages tr text).1.get l =
      some (match tr (textForTranslationOf text) (detectLanguage text) l with
            | some s => s
            | none => text) := by
  simp only [translateToMultipleLanguages]
  rw [jamo_cond_false text hnj]
  exact foldl_get_value tr (detectLanguage text) _ _ text targetLanguages _ l
    nodup_targetLanguages (mem_targetLanguages l) hl

theorem translate_get_target_jamo (tr : Translator) (text : String) (l : Lang)
    (hko : detectLanguage text = .ko) (hj : isHangulJamoOnly text = true)
    (hl : l ≠ .ko) :
    (translateToMultipleLanguages tr text).1.get l = some (hangulJamoToRoman text) := by
  simp only [translateToMultipleLanguages, hko, hj, decide_True, Bool.and_self, if_pos]
  exact foldl_get_value_jamo tr Lang.ko _ _ text targetLanguages _ l
    nodup_targetLanguages (mem_targetLanguages l) hl

theorem translate_calls_jamo (tr : Translator) (text : String)
    (hko : detectLanguage text = .ko) (hj : isHangulJamoOnly text = true) :
    (translateToMultipleLanguages tr text).2 = [] := by
  simp only [translateToMultipleLanguages, hko, hj, decide_True, Bool.and_self, if_pos]
  exact foldl_calls_jamo tr Lang.ko _ _ text targetLanguages _

/-! ## Claims about the translation pipeline -/

/-- Claim C1: for every non-empty input text, translateToMultipleLanguages
returns a map with an entry for each of the three supported languages (ko, ja,
en), the entry for the language detectLanguage returns equals the input text
verbatim, and no recorded translator call ever targets the detected source
language — the source slot is never sent through the translator and never
overwritten. -/
theorem C1_translate_total_source_verbatim (tr : Translator) (text : String)
    (hne : text ≠ "") :
    (translateToMultipleLanguages tr text).1.get (detectLanguage text) = some text
    ∧ (∀ l : Lang, (translateToMultipleLanguages tr text).1.get l ≠ none)
    ∧ (∀ c ∈ (translateToMultipleLanguages tr text).2, c.tgt ≠ detectLanguage text) := by
  refine ⟨translate_source_verbatim tr text, ?_, ?_⟩
  · intro l
    by_cases hl : l = detectLanguage text
    · rw [hl, translate_source_verbatim tr text]
      exact Option.some_ne_none _
    · unfold translateToMultipleLanguages
      exact foldl_get_filled _ _ _ _ _ _ targetLanguages _ l (mem_targetLanguages l) hl
  · unfold translateToMultipleLanguages
    exact foldl_calls_tgt _ _ _ _ _ _ targetLanguages _ (by intro c hc; cases hc)

/-- Witness for C1: the text "hi" with an always-failing translator. -/
theorem C1_witness :
    (translateToMultipleLanguages (fun _ _ _ => none) "hi").1.get (detectLanguage "hi") = some "hi"
    ∧ (∀ l : Lang, (translateToMultipleLanguages (fun _ _ _ => none) "hi").1.get l ≠ none)
    ∧ (∀ c ∈ (translateToMultipleLanguages (fun _ _ _ => none) "hi").2,
        c.tgt ≠ detectLanguage "hi") :=
  C1_translate_total_source_verbatim (fun _ _ _ => none) "hi" (by decide)

/-- Claim C3: for text whose detected source is ko and which isHangulJamoOnly
accepts, no translator call is recorded, and both non-source entries (ja and
en) equal hangulJamoToRoman of the input. -/
theorem C3_jamo_only_transliterated (tr : Translator) (text : String)
    (hko : detectLanguage text = .ko) (hj : isHangulJamoOnly text = true) :
    (translateToMultipleLanguages tr text).2 = []
    ∧ (translateToMultipleLanguages tr text).1.get .ja = some (hangulJamoToRoman text)
    ∧ (translateToMultipleLanguages tr text).1.get .en = some (hangulJamoToRoman text) :=
  ⟨translate_calls_jamo tr text hko hj,
   translate_get_target_jamo tr text .ja hko hj (by decide),
   translate_get_target_jamo tr text .en hko hj (by decide)⟩

/-- Witness for C3: "ㅋㅋㅋ", with a translator that would answer "junk" if it
were ever consulted. -/
theorem C3_witness :
    (translateToMultipleLanguages (fun _ _ _ => some "junk") "ㅋㅋㅋ").2 = []
    ∧ (translateToMultipleLanguages (fun _ _ _ => some "junk") "ㅋㅋㅋ").1.get .ja =
        some (hangulJamoToRoman "ㅋㅋㅋ")
    ∧ (translateToMultipleLanguages (fun _ _ _ => some "junk") "ㅋㅋㅋ").1.get .en =
        some (hangulJamoToRoman "ㅋㅋㅋ") :=
  C3_jamo_only_transliterated (fun _ _ _ => some "junk") "ㅋㅋㅋ" (by decide) (by decide)

/-- Claim C4: when the translator call fails (models a throw) for a target
language, the entry stored for that target is the original input text, not the
sanitized request payload; the entry of any other target depends only on the
translator's response for that target (so it is unaffected by the failure);
and the failure is never propagated — translateToMultipleLanguages is a total
function of the translator oracle by construction. -/
theorem C4_translator_failure_fallback (tr tr' : Translator) (text : String) (t : Lang)
    (ht : t ≠ detectLanguage text)
    (hnj : ¬ (detectLanguage text = .ko ∧ isHangulJamoOnly text = true))
    (hfail : tr (textForTranslationOf text) (detectLanguage text) t = none) :
    (translateToMultipleLanguages tr text).1.get t = some text
    ∧ (∀ t' : Lang, t' ≠ t →
        tr' (textForTranslationOf text) (detectLanguage text) t' =
          tr (textForTranslationOf text) (detectLanguage text) t' →
        (translateToMultipleLanguages tr' text).1.get t' =
          (translateToMultipleLanguages tr text).1.get t') := by
  constructor
  · rw [translate_get_target tr text t ht hnj, hfail]
  · intro t' hne hagree
    by_cases hf : t' = detectLanguage text
    · rw [hf, translate_source_verbatim, translate_source_verbatim]
    · rw [translate_get_target tr' text t' hf hnj, translate_get_target tr text t' hf hnj,
        hagree]

/-- Witness for C4: "hello" (detected en) with a translator failing on ko but
answering on ja, compared against one that answers the same on ja. -/
theorem C4_witness :
    (translateToMultipleLanguages
        (fun _ _ l => match l with | .ko => none | _ => some "X") "hello").1.get .ko =
      some "hello"
    ∧ (translateToMultipleLanguages (fun _ _ _ => some "X") "hello").1.get .ja =
        (translateToMultipleLanguages
          (fun _ _ l => match l with | .ko => none | _ => some "X") "hello").1.get .ja :=
  ⟨(C4_translator_failure_fallback
      (fun _ _ l => match l with | .ko => none | _ => some "X")
      (fun _ _ _ => some "X") "hello" .ko (by decide) (by decide) rfl).1,
   (C4_translator_failure_fallback
      (fun _ _ l => match l with | .ko => none | _ => some "X")
      (fun _ _ _ => some "X") "hello" .ko (by decide) (by decide) rfl).2
     .ja (by decide) rfl⟩

/-! ## Helper lemmas: non-emptiness of transliteration output -/

theorem lookup_mem_pairs :
    ∀ (l : List (Char × String)) (k : Char) (v : String),
      l.lookup k = some v → (k, v) ∈ l
  | (k', v') :: rest, k, v, h => by
    simp only [List.lookup] at h
    split at h
    · rename_i hk
      obtain rfl := Option.some_inj.mp h
      exact (eq_of_beq hk) ▸ List.mem_cons_self _ _
    · exact List.mem_cons_of_mem _ (lookup_mem_pairs rest k v h)

theorem romanMap_value_ne_empty (c : Char) (s : String)
    (h : hangulJamoRomanMap c = some s) : s ≠ "" := by
  have hall : ∀ p ∈ hangulJamoRomanPairs, p.2 ≠ ("" : String) := by decide
  exact hall (c, s) (lookup_mem_pairs _ c s h)

theorem romanPiece_ne_empty (c : Char) :
    ((hangulJamoRomanMap c).getD (String.singleton c)) ≠ "" := by
  rcases h : hangulJamoRomanMap c with _ | s
  · rw [Option.getD_none]
    intro he
    exact absurd (congrArg String.data he) (by simp [String.singleton])
  · rw [Option.getD_some]
    exact romanMap_value_ne_empty c s h

theorem string_append_ne_empty_right (a p : String) (hp : p ≠ "") : a ++ p ≠ "" := by
  intro h
  apply hp
  have hd : a.data ++ p.data = [] := by
    rw [← String.data_append, h]
  exact String.ext (List.append_eq_nil.mp hd).2

theorem roman_foldl_ne_empty :
    ∀ (l : List Char) (acc : String), acc ≠ "" →
      (l.foldl (fun out ch => out ++ ((hangulJamoRomanMap ch).getD (String.singleton ch))) acc) ≠ ""
  | [], _, h => h
  | c :: rest, acc, h => by
    rw [List.foldl_cons]
    exact roman_foldl_ne_empty rest _
      (string_append_ne_empty_right acc _ (romanPiece_ne_empty c))

theorem hangulJamoToRoman_ne_empty (text : String) (h : text ≠ "") :
    hangulJamoToRoman text ≠ "" := by
  unfold hangulJamoToRoman
  rcases hd : text.data with _ | ⟨c, rest⟩
  · exact absurd (String.ext hd) h
  · rw [List.foldl_cons]
    exact roman_foldl_ne_empty rest _
      (string_append_ne_empty_right "" _ (romanPiece_ne_empty c))

/-! ## Claim C9 -/

/-- Counterexample to C9 as stated: the code stores a successful translator
response verbatim, so when the backend resolves with the empty string for the
non-empty input "hello", the stored ko entry is the empty string. The claim's
quantification over all translator-backend outcomes fails. -/
theorem C9_counterexample :
    ¬ (∀ v : String,
        (translateToMultipleLanguages (fun _ _ _ => some "") "hello").1.get Lang.ko = some v →
        v ≠ "") := by
  intro h
  exact h "" (by decide) rfl

/-- Claim C9 amended: every value of the translations map is non-empty
provided the (trimmed) sent text is non-empty and every successful translator
response is a non-empty string; the source slot, the per-target failure
fallback and the jamo-only transliteration are always non-empty on their own. -/
theorem C9_amended_values_nonempty (tr : Translator) (text : String)
    (hne : text ≠ "")
    (htr : ∀ (req : String) (a b : Lang) (s : String), tr req a b = some s → s ≠ "") :
    ∀ (l : Lang) (v : String),
      (translateToMultipleLanguages tr text).1.get l = some v → v ≠ "" := by
  intro l v hv
  by_cases hl : l = detectLanguage text
  · rw [hl, translate_source_verbatim] at hv
    exact (Option.some_inj.mp hv) ▸ hne
  · by_cases hj : detectLanguage text = .ko ∧ isHangulJamoOnly text = true
    · rw [translate_get_target_jamo tr text l hj.1 hj.2 (hj.1 ▸ hl)] at hv
      exact (Option.some_inj.mp hv) ▸ hangulJamoToRoman_ne_empty text hne
    · rw [translate_get_target tr text l hl hj] at hv
      rcases htr2 : tr (textForTranslationOf text) (detectLanguage text) l with _ | s
      · rw [htr2] at hv
        exact (Option.some_inj.mp hv) ▸ hne
      · rw [htr2] at hv
        exact (Option.some_inj.mp hv) ▸ htr _ _ _ s htr2

/-- Witness for the amended C9: "hi" with an always-failing translator stores
"hi" in the ko slot, and that stored value is non-empty. -/
theorem C9_witness :
    (translateToMultipleLanguages (fun _ _ _ => none) "hi").1.get Lang.ko = some "hi"
    ∧ ("hi" : String) ≠ "" :=
  ⟨by decide,
   C9_amended_values_nonempty (fun _ _ _ => none) "hi" (by decide)
     (fun _ _ _ _ h => nomatch h) Lang.ko "hi" (by decide)⟩

/-! ## Helper lemmas: the bounded history store -/

theorem take_append_take (L : Nat) (xs ys : List String) :
    (xs ++ ys.take L).take L = (xs ++ ys).take L := by
  rw [List.take_append_eq_append_take, List.take_append_eq_append_take, List.take_take]
  congr 1
  rw [Nat.min_eq_left (Nat.sub_le L xs.length)]

theorem foldl_addMessage (limit : Nat) :
    ∀ (sends : List String) (h : List String),
      sends.foldl (addMessage limit) (h.take (Nat.max 0 (limit - 1) + 1)) =
        ((sends.reverse ++ h).take (Nat.max 0 (limit - 1) + 1))
  | [], h => by simp
  | s :: rest, h => by
    rw [List.foldl_cons]
    have hstep : addMessage limit (h.take (Nat.max 0 (limit - 1) + 1)) s =
        ((s :: h).take (Nat.max 0 (limit - 1) + 1)) := by
      unfold addMessage
      have hc : (s :: h.take (Nat.max 0 (limit - 1) + 1)) =
          [s] ++ h.take (Nat.max 0 (limit - 1) + 1) := rfl
      rw [hc, take_append_take, List.singleton_append]
    rw [hstep, foldl_addMessage limit rest (s :: h), List.reverse_cons, List.append_assoc]
    rfl

theorem foldl_addMessage_nil (limit : Nat) (sends : List String) :
    sends.foldl (addMessage limit) [] = sends.reverse.take (Nat.max 0 (limit - 1) + 1) := by
  have h := foldl_addMessage limit sends []
  simpa using h

theorem getMessages_foldl_chronological (sends : List String) (limit : Nat)
    (hl : 1 ≤ limit) :
    getMessages (fun s => some s) (sends.foldl (addMessage chatHistoryLimit) []) limit =
      sends.drop (sends.length - min limit 200) := by
  rw [foldl_addMessage_nil]
  unfold getMessages chatHistoryLimit
  have h200 : Nat.max 0 (200 - 1) + 1 = 200 := rfl
  have hmax : Nat.max 0 (limit - 1) = limit - 1 := Nat.zero_max (limit - 1)
  have hlim : Nat.max 0 (limit - 1) + 1 = limit := by
    rw [hmax]
    omega
  rw [h200, hlim, List.filterMap_some, List.take_take, List.take_reverse,
    List.reverse_reverse]

/-! ## Claim C2 -/

/-- Counterexample to C2 as stated: at limit 0, getMessages runs
`LRANGE key 0 (Math.max(0, -1))`, i.e. indices 0..0, and so returns one entry
from a one-entry history instead of at most zero. -/
theorem C2_counterexample :
    getMessages (fun s => (some s : Option String)) ["m"] 0 = ["m"]
    ∧ ¬ ((getMessages (fun s => (some s : Option String)) ["m"] 0).length ≤ 0) :=
  ⟨rfl, by decide⟩

/-- Claim C2 amended: for every positive limit, getMessages returns at most
`limit` entries; a history produced by sequential addMessage appends at the
default capacity 200 is read back oldest-first as exactly the newest
`min limit 200` sends in send order; in particular after 205 sequential
appends, getMessages with limit 250 returns exactly the newest 200 entries,
oldest-first. (The only amendment: `limit ≥ 1` instead of every limit, forced
by the limit-0 counterexample.) -/
theorem C2_amended_history_bound :
    (∀ (α : Type) (parse : String → Option α) (hist : List String) (limit : Nat),
        1 ≤ limit → (getMessages parse hist limit).length ≤ limit)
    ∧ (∀ (sends : List String) (limit : Nat), 1 ≤ limit →
        getMessages (fun s => some s) (sends.foldl (addMessage chatHistoryLimit) []) limit =
          sends.drop (sends.length - min limit 200))
    ∧ getMessages (fun s => some s)
        (((List.range 205).map Nat.repr).foldl (addMessage chatHistoryLimit) []) 250 =
        ((List.range 205).map Nat.repr).drop 5
    ∧ (getMessages (fun s => some s)
        (((List.range 205).map Nat.repr).foldl (addMessage chatHistoryLimit) []) 250).length
        = 200 := by
  have hlen : ∀ (α : Type) (parse : String → Option α) (hist : List String) (limit : Nat),
      1 ≤ limit → (getMessages parse hist limit).length ≤ limit := by
    intro α parse hist limit hl
    unfold getMessages
    rw [List.length_reverse]
    have h1 : (List.filterMap parse (hist.take (Nat.max 0 (limit - 1) + 1))).length ≤
        (hist.take (Nat.max 0 (limit - 1) + 1)).length := List.length_filterMap_le _ _
    have h2 : (hist.take (Nat.max 0 (limit - 1) + 1)).length ≤ Nat.max 0 (limit - 1) + 1 := by
      rw [List.length_take]
      exact Nat.min_le_left _ _
    have hmax : Nat.max 0 (limit - 1) = limit - 1 := Nat.zero_max (limit - 1)
    omega
  refine ⟨hlen, getMessages_foldl_chronological, ?_, ?_⟩
  · rw [getMessages_foldl_chronological _ 250 (by omega)]
    norm_num
  · rw [getMessages_foldl_chronological _ 250 (by omega)]
    rw [List.length_drop]
    norm_num

/-- Witness for the amended C2 at concrete histories and limits. -/
theorem C2_witness :
    (getMessages (fun s => (some s : Option String)) ["b", "a"] 1).length ≤ 1 ∧
    getMessages (fun s => some s) (["x", "y"].foldl (addMessage chatHistoryLimit) []) 5 =
      ["x", "y"].drop (["x", "y"].length - min 5 200) :=
  ⟨C2_amended_history_bound.1 String (fun s => some s) ["b", "a"] 1 (by decide),
   C2_amended_history_bound.2.1 ["x", "y"] 5 (by decide)⟩

/-! ## Claim C7 -/

theorem roomLe_trans (a b c : ChatRoom) (h1 : roomLe a b = true) (h2 : roomLe b c = true) :
    roomLe a c = true := by
  simp only [roomLe, decide_eq_true_eq] at h1 h2 ⊢
  exact Nat.le_trans h1 h2

theorem roomLe_total (a b : ChatRoom) : (roomLe a b || roomLe b a) = true := by
  simp only [roomLe, Bool.or_eq_true, decide_eq_true_eq]
  exact Nat.le_total a.createdAt b.createdAt

/-- Claim C7: listRooms returns the decodable stored rooms sorted ascending by
createdAt for every enumeration order of the room-index set (the statement
quantifies over arbitrary roomIds, metadata and parser), and room ids whose
metadata record is missing, falsy or unparseable are skipped — the output is a
permutation of exactly the decodable records, so the listing never aborts. -/
theorem C7_listRooms_sorted_and_skips (parseRoom : String → Option ChatRoom)
    (st : RedisState) :
    (listRooms parseRoom st).Pairwise (fun a b => a.createdAt ≤ b.createdAt)
    ∧ (listRooms parseRoom st).Perm (decodableRooms parseRoom st) := by
  constructor
  · have h := @List.sorted_mergeSort ChatRoom roomLe roomLe_trans roomLe_total
      (decodableRooms parseRoom st)
    exact h.imp (fun hab => of_decide_eq_true hab)
  · exact List.mergeSort_perm _ _

/-! ## Claim C5 -/

/-- Claim C5: a chat:send command whose text payload trims to empty (or is not
a string, yielding the empty string), or whose connection has no registered
session, or whose session holds no current room, is silently dropped: the
gateway state (sessions, transport rooms, Redis store) is returned unchanged
and no event of any kind — broadcast or error — is emitted. -/
theorem C5_invalid_send_dropped (tr : Translator) (encode : ChatMessage → String)
    (histLimit now : Nat) (st : GatewayState) (clientId : String) (body : JsVal)
    (h : strOrEmpty body = "" ∨ st.sessions.lookup clientId = none ∨
      ∃ s : Session, st.sessions.lookup clientId = some s ∧ s.roomId = none) :
    onChatSend tr encode histLimit now st clientId body = (st, []) := by
  rcases h with h1 | h2 | ⟨s, hs, hr⟩
  · simp [onChatSend, h1]
  · simp [onChatSend, h2]
  · simp [onChatSend, hs, hr]

/-- Witness for C5: a non-string payload on a connection with no session. -/
theorem C5_witness :
    onChatSend (fun _ _ _ => none) (fun _ => "") 200 0
      ⟨[], [], ⟨[], [], []⟩⟩ "c1" JsVal.notStr = (⟨[], [], ⟨[], [], []⟩⟩, []) :=
  C5_invalid_send_dropped (fun _ _ _ => none) (fun _ => "") 200 0
    ⟨[], [], ⟨[], [], []⟩⟩ "c1" JsVal.notStr (Or.inl rfl)

/-! ## Claims C8 and C10 -/

/-- Claim C8: detectLanguage is a total deterministic three-way classifier:
text containing a Hangul-range codepoint is classified ko; text without one
but containing a Hiragana/Katakana-range codepoint is classified ja; all other
text falls back to en (the three cases are the if/else-if/else cascade of the
source). -/
theorem C8_detect_three_way (s : String) :
    ((∃ c ∈ s.data, isHangulRangeCp c.toNat = true) → detectLanguage s = .ko)
    ∧ (¬ (∃ c ∈ s.data, isHangulRangeCp c.toNat = true) →
        (∃ c ∈ s.data, isKanaRangeCp c.toNat = true) → detectLanguage s = .ja)
    ∧ (¬ (∃ c ∈ s.data, isHangulRangeCp c.toNat = true) →
        ¬ (∃ c ∈ s.data, isKanaRangeCp c.toNat = true) → detectLanguage s = .en) := by
  have hh : hasHangulCp s = true ↔ ∃ c ∈ s.data, isHangulRangeCp c.toNat = true := by
    simp [hasHangulCp, List.any_eq_true]
  have hk : hasKanaCp s = true ↔ ∃ c ∈ s.data, isKanaRangeCp c.toNat = true := by
    simp [hasKanaCp, List.any_eq_true]
  refine ⟨?_, ?_, ?_⟩
  · intro h
    unfold detectLanguage
    rw [if_pos (hh.mpr h)]
  · intro h1 h2
    unfold detectLanguage
    rw [if_neg (fun hb => h1 (hh.mp hb)), if_pos (hk.mpr h2)]
  · intro h1 h2
    unfold detectLanguage
    rw [if_neg (fun hb => h1 (hh.mp hb)), if_neg (fun hb => h2 (hk.mp hb))]

/-- Witness for C8: one text per class. -/
theorem C8_witness :
    detectLanguage "가" = .ko ∧ detectLanguage "か" = .ja ∧ detectLanguage "hi" = .en :=
  ⟨(C8_detect_three_way "가").1 (by decide),
   (C8_detect_three_way "か").2.1 (by decide) (by decide),
   (C8_detect_three_way "hi").2.2 (by decide) (by decide)⟩

/-- Claim C10: when a text contains both a Hangul-range codepoint and a
Hiragana/Katakana-range codepoint, the Hangul branch wins and detectLanguage
returns ko. -/
theorem C10_mixed_script_ko (s : String)
    (hh : ∃ c ∈ s.data, isHangulRangeCp c.toNat = true)
    (hk : ∃ c ∈ s.data, isKanaRangeCp c.toNat = true) :
    detectLanguage s = .ko := by
  unfold detectLanguage
  rw [if_pos (by simpa [hasHangulCp, List.any_eq_true] using hh)]

/-- Witness for C10: mixed Hangul and Hiragana text. -/
theorem C10_witness : detectLanguage "가か" = .ko :=
  C10_mixed_script_ko "가か" (by decide) (by decide)

/-! ## Helper lemmas: sessions map and transport room membership -/

theorem lookup_setAssoc_self {α : Type} :
    ∀ (l : List (String × α)) (k : String) (v : α),
      (setAssoc l k v).lookup k = some v
  | [], k, v => by simp [setAssoc, List.lookup]
  | (k', v') :: rest, k, v => by
    unfold setAssoc
    by_cases h : k' = k
    · rw [if_pos h]
      simp [List.lookup]
    · rw [if_neg h]
      have hb : (k == k') = false := by
        rw [beq_eq_false_iff_ne]
        exact fun he => h he.symm
      simp only [List.lookup, hb]
      exact lookup_setAssoc_self rest k v

theorem lookup_setAssoc_ne {α : Type} :
    ∀ (l : List (String × α)) (k k' : String) (v : α), k' ≠ k →
      (setAssoc l k v).lookup k' = l.lookup k'
  | [], k, k', v, h => by
    have hb : (k' == k) = false := by
      rw [beq_eq_false_iff_ne]
      exact h
    simp [setAssoc, List.lookup, hb]
  | (k'', v'') :: rest, k, k', v, h => by
    unfold setAssoc
    by_cases h2 : k'' = k
    · rw [if_pos h2]
      have hb : (k' == k) = false := by
        rw [beq_eq_false_iff_ne]
        exact h
      have hb2 : (k' == k'') = false := by
        rw [beq_eq_false_iff_ne]
        rw [h2]
        exact h
      simp only [List.lookup, hb, hb2]
    · rw [if_neg h2]
      simp only [List.lookup]
      cases hb : (k' == k'')
      · exact lookup_setAssoc_ne rest k k' v h
      · rfl

theorem getRooms_setAssoc_self (l : List (String × List String)) (c : String)
    (v : List String) : getRooms (setAssoc l c v) c = v := by
  unfold getRooms
  rw [lookup_setAssoc_self]
  rfl

theorem getRooms_setAssoc_ne (l : List (String × List String)) (c c' : String)
    (v : List String) (h : c' ≠ c) : getRooms (setAssoc l c v) c' = getRooms l c' := by
  unfold getRooms
  rw [lookup_setAssoc_ne _ _ _ _ h]

theorem getRooms_socketJoin_self (l : List (String × List String)) (c room : String) :
    getRooms (socketJoin l c room) c =
      (if room ∈ getRooms l c then getRooms l c else getRooms l c ++ [room]) := by
  simp only [socketJoin]
  rw [getRooms_setAssoc_self]
  rfl

theorem getRooms_socketJoin_ne (l : List (String × List String)) (c c' room : String)
    (h : c' ≠ c) : getRooms (socketJoin l c room) c' = getRooms l c' := by
  simp only [socketJoin]
  rw [getRooms_setAssoc_ne _ _ _ _ h]

theorem getRooms_socketLeave_self (l : List (String × List String)) (c room : String) :
    getRooms (socketLeave l c room) c = (getRooms l c).filter (fun r => r != room) := by
  simp only [socketLeave]
  rw [getRooms_setAssoc_self]
  rfl

theorem getRooms_socketLeave_ne (l : List (String × List String)) (c c' room : String)
    (h : c' ≠ c) : getRooms (socketLeave l c room) c' = getRooms l c' := by
  simp only [socketLeave]
  rw [getRooms_setAssoc_ne _ _ _ _ h]

theorem onRoomJoin_none (pr : String → Option ChatRoom) (pm : String → Option ChatMessage)
    (st : GatewayState) (cid : String) (b : JsVal)
    (hs : st.sessions.lookup cid = none) :
    onRoomJoin pr pm st cid b = (st, []) := by
  simp [onRoomJoin, hs]

theorem onRoomJoin_empty (pr : String → Option ChatRoom) (pm : String → Option ChatMessage)
    (st : GatewayState) (cid : String) (b : JsVal) (session : Session)
    (hs : st.sessions.lookup cid = some session) (hr : strOrEmpty b = "") :
    onRoomJoin pr pm st cid b = (st, []) := by
  simp [onRoomJoin, hs, hr]

theorem onRoomJoin_state_none (pr : String → Option ChatRoom)
    (pm : String → Option ChatMessage) (st : GatewayState) (cid : String) (b : JsVal)
    (session : Session) (hs : st.sessions.lookup cid = some session)
    (hro : session.roomId = none) (hr : strOrEmpty b ≠ "") :
    (onRoomJoin pr pm st cid b).1 =
      ⟨setAssoc st.sessions cid ⟨session.userId, session.nickname, some (strOrEmpty b)⟩,
       socketJoin st.socketRooms cid (strOrEmpty b), st.redis⟩ := by
  simp [onRoomJoin, hs, hro, hr]

theorem onRoomJoin_state_some (pr : String → Option ChatRoom)
    (pm : String → Option ChatMessage) (st : GatewayState) (cid : String) (b : JsVal)
    (session : Session) (old : String) (hs : st.sessions.lookup cid = some session)
    (hro : session.roomId = some old) (hr : strOrEmpty b ≠ "") :
    (onRoomJoin pr pm st cid b).1 =
      ⟨setAssoc st.sessions cid ⟨session.userId, session.nickname, some (strOrEmpty b)⟩,
       socketJoin
         (if old ≠ strOrEmpty b then socketLeave st.socketRooms cid old else st.socketRooms)
         cid (strOrEmpty b),
       st.redis⟩ := by
  simp [onRoomJoin, hs, hro, hr]

theorem getRooms_join_fresh (l : List (String × List String)) (cid R : String)
    (hg : getRooms l cid = []) : getRooms (socketJoin l cid R) cid = [R] := by
  rw [getRooms_socketJoin_self, hg]
  simp

theorem getRooms_join_same (l : List (String × List String)) (cid R : String)
    (hg : getRooms l cid = [R]) : getRooms (socketJoin l cid R) cid = [R] := by
  rw [getRooms_socketJoin_self, hg]
  simp

theorem rooms_after_join (st : GatewayState) (cid R : String) (session : Session)
    (hg : getRooms st.socketRooms cid = (session.roomId).toList) :
    (session.roomId = none →
      getRooms (socketJoin st.socketRooms cid R) cid = [R])
    ∧ (∀ old : String, session.roomId = some old →
        getRooms
          (socketJoin
            (if old ≠ R then socketLeave st.socketRooms cid old else st.socketRooms)
            cid R) cid = [R]) := by
  constructor
  · intro hro
    rw [hro] at hg
    exact getRooms_join_fresh _ _ _ hg
  · intro old hro
    rw [hro] at hg
    by_cases hold : old ≠ R
    · rw [if_pos hold]
      apply getRooms_join_fresh
      rw [getRooms_socketLeave_self, hg]
      simp
    · push_neg at hold
      rw [if_neg (fun hne => hne hold)]
      apply getRooms_join_same
      rw [hg, hold]
      rfl

theorem onRoomJoin_inv (pr : String → Option ChatRoom) (pm : String → Option ChatMessage)
    (st : GatewayState) (cid : String) (b : JsVal)
    (hinv : SocketRoomsInv st) : SocketRoomsInv ((onRoomJoin pr pm st cid b).1) := by
  rcases hs : st.sessions.lookup cid with _ | session
  · rw [onRoomJoin_none pr pm st cid b hs]
    exact hinv
  · by_cases hr : strOrEmpty b = ""
    · rw [onRoomJoin_empty pr pm st cid b session hs hr]
      exact hinv
    · have hg : getRooms st.socketRooms cid = (session.roomId).toList := by
        have h2 := hinv cid
        unfold sessionRoomOf at h2
        rw [hs] at h2
        exact h2
      have hja := rooms_after_join st cid (strOrEmpty b) session hg
      rcases hro : session.roomId with _ | old
      · rw [onRoomJoin_state_none pr pm st cid b session hs hro hr]
        intro c
        by_cases hc : c = cid
        · subst hc
          unfold sessionRoomOf
          rw [lookup_setAssoc_self]
          exact hja.1 hro
        · unfold sessionRoomOf
          rw [lookup_setAssoc_ne _ _ _ _ hc, getRooms_socketJoin_ne _ _ _ _ hc]
          exact hinv c
      · rw [onRoomJoin_state_some pr pm st cid b session old hs hro hr]
        intro c
        by_cases hc : c = cid
        · subst hc
          unfold sessionRoomOf
          rw [lookup_setAssoc_self]
          exact hja.2 old hro
        · unfold sessionRoomOf
          rw [lookup_setAssoc_ne _ _ _ _ hc, getRooms_socketJoin_ne _ _ _ _ hc]
          by_cases hold : old ≠ strOrEmpty b
          · rw [if_pos hold, getRooms_socketLeave_ne _ _ _ _ hc]
            exact hinv c
          · rw [if_neg hold]
            exact hinv c

theorem onRoomJoin_result (pr : String → Option ChatRoom) (pm : String → Option ChatMessage)
    (st : GatewayState) (cid : String) (b : JsVal) (session : Session)
    (hinv : SocketRoomsInv st)
    (hs : st.sessions.lookup cid = some session) (hr : strOrEmpty b ≠ "") :
    ((onRoomJoin pr pm st cid b).1).sessions.lookup cid =
      some ⟨session.userId, session.nickname, some (strOrEmpty b)⟩
    ∧ getRooms ((onRoomJoin pr pm st cid b).1).socketRooms cid = [strOrEmpty b] := by
  have hg : getRooms st.socketRooms cid = (session.roomId).toList := by
    have h2 := hinv cid
    unfold sessionRoomOf at h2
    rw [hs] at h2
    exact h2
  have hja := rooms_after_join st cid (strOrEmpty b) session hg
  rcases hro : session.roomId with _ | old
  · rw [onRoomJoin_state_none pr pm st cid b session hs hro hr]
    exact ⟨lookup_setAssoc_self _ _ _, hja.1 hro⟩
  · rw [onRoomJoin_state_some pr pm st cid b session old hs hro hr]
    exact ⟨lookup_setAssoc_self _ _ _, hja.2 old hro⟩

/-! ## Claim C6 -/

/-- Claim C6: from any gateway state satisfying the membership invariant, a
successful join of room X followed by a successful join of room Y (X and Y
non-empty after trimming, X distinct from Y, by a connection with a session)
leaves the session's currentRoomId exactly Y, the connection's transport-layer
membership exactly the one room Y — in particular the connection has left X —
and onRoomJoin preserves the invariant that every session is a member of at
most one room (its transport membership equals its recorded room). -/
theorem C6_rejoin_switches_room (pr : String → Option ChatRoom)
    (pm : String → Option ChatMessage) (st : GatewayState) (cid x y : String)
    (hinv : SocketRoomsInv st) (session : Session)
    (hs : st.sessions.lookup cid = some session)
    (hx : jsTrim x ≠ "") (hy : jsTrim y ≠ "") (hxy : jsTrim x ≠ jsTrim y) :
    sessionRoomOf
        ((onRoomJoin pr pm ((onRoomJoin pr pm st cid (.str x)).1) cid (.str y)).1) cid =
      some (jsTrim y)
    ∧ getRooms
        ((onRoomJoin pr pm ((onRoomJoin pr pm st cid (.str x)).1) cid (.str y)).1).socketRooms
        cid = [jsTrim y]
    ∧ jsTrim x ∉ getRooms
        ((onRoomJoin pr pm ((onRoomJoin pr pm st cid (.str x)).1) cid (.str y)).1).socketRooms
        cid
    ∧ (∀ (st' : GatewayState) (c' : String) (b' : JsVal),
        SocketRoomsInv st' → SocketRoomsInv ((onRoomJoin pr pm st' c' b').1)) := by
  have h1 := onRoomJoin_result pr pm st cid (.str x) session hinv hs hx
  have hinv1 := onRoomJoin_inv pr pm st cid (.str x) hinv
  have h2 := onRoomJoin_result pr pm ((onRoomJoin pr pm st cid (.str x)).1) cid (.str y)
      ⟨session.userId, session.nickname, some (jsTrim x)⟩ hinv1 h1.1 hy
  refine ⟨?_, h2.2, ?_, fun st' c' b' hi => onRoomJoin_inv pr pm st' c' b' hi⟩
  · unfold sessionRoomOf
    rw [h2.1]
    rfl
  · rw [h2.2]
    intro hmem
    rw [List.mem_singleton] at hmem
    exact hxy hmem

/-- Witness for C6: a fresh one-session state joining "a" then "b". -/
theorem C6_witness :
    sessionRoomOf
        ((onRoomJoin (fun _ => none) (fun _ => none)
          ((onRoomJoin (fun _ => none) (fun _ => none)
            ⟨[("c1", ⟨"u", "n", none⟩)], [], ⟨[], [], []⟩⟩ "c1" (.str "a")).1)
          "c1" (.str "b")).1) "c1" = some (jsTrim "b")
    ∧ getRooms
        ((onRoomJoin (fun _ => none) (fun _ => none)
          ((onRoomJoin (fun _ => none) (fun _ => none)
            ⟨[("c1", ⟨"u", "n", none⟩)], [], ⟨[], [], []⟩⟩ "c1" (.str "a")).1)
          "c1" (.str "b")).1).socketRooms "c1" = [jsTrim "b"]
    ∧ jsTrim "a" ∉ getRooms
        ((onRoomJoin (fun _ => none) (fun _ => none)
          ((onRoomJoin (fun _ => none) (fun _ => none)
            ⟨[("c1", ⟨"u", "n", none⟩)], [], ⟨[], [], []⟩⟩ "c1" (.str "a")).1)
          "c1" (.str "b")).1).socketRooms "c1"
    ∧ (∀ (st' : GatewayState) (c' : String) (b' : JsVal),
        SocketRoomsInv st' →
        SocketRoomsInv ((onRoomJoin (fun _ => none) (fun _ => none) st' c' b').1)) :=
  C6_rejoin_switches_room (fun _ => none) (fun _ => none)
    ⟨[("c1", ⟨"u", "n", none⟩)], [], ⟨[], [], []⟩⟩ "c1" "a" "b"
    (by
      intro c
      unfold sessionRoomOf getRooms
      cases hb : (c == "c1") <;> simp [List.lookup, hb])
    ⟨"u", "n", none⟩ (by decide) (by decide) (by decide) (by decide)
